import Mathlib

/-!
Verification of the streaming object-aggregation pipeline.

Shallow embedding of the log-aggregation lambda/CLI program (the
`aggregator` type and its methods).  The repository contains two
variants of the same program:

* variant A (CLI + lambda): `writeContent` appends the raw fetched
  content to the buffer and `uploadBuffer` uploads the raw buffer;
* variant B (lambda only): `writeContent` gzips each content item
  before buffering and `uploadBuffer` gzips the whole buffer again
  before uploading.

Both variants share the same control structure, so the embedding is
parameterised by two encoding functions `enc` (per-item, applied by
`writeContent`; `id` in variant A, gzip in variant B) and `flushEnc`
(whole-buffer, applied by `uploadBuffer`; `id` in variant A, gzip in
variant B).  gzip itself is an external library and is kept abstract.

Bytes are modelled as `List Nat`.  The S3 client is modelled by an
event trace (`Event`): listing, per-object fetch, `PutObject` calls and
dry-run log lines.  `PutObject` outcomes are an oracle `putOk` indexed
by the bundle counter of the attempt.  The worker pool delivers decoded
object contents to the mutex-guarded buffer in a nondeterministic
order; the sequential model below takes that arrival order as its input
list, so theorems quantifying over the input list cover every
interleaving of a run.  The mutex itself is elided in the sequential
model (its operations serialise append/flush); a separate lock-aware
model (`writeContentMu`, `uploadBufferMu`) captures the fact that Go's
`sync.Mutex` is not reentrant.
-/

namespace Agg

/-- Byte strings, as lists of (opaque) byte values. -/
abbrev Bytes := List Nat

/-- The mutable fields of the Go `aggregator` struct that the claims
are about: destination key prefix, the accumulation buffer
(`currentBuffer`), the running size counter (`currentSize`, an `int64`
in Go that only ever accumulates non-negative byte counts written) and
the bundle counter (`fileCounter`). -/
structure AggState where
  destPfx : String
  currentBuffer : Bytes
  currentSize : Nat
  fileCounter : Nat
deriving DecidableEq

/-- Observable actions of one run against the object store / log. -/
inductive Event where
  /-- A ListObjectsV2 paginated listing under the given bucket. -/
  | list (bucket : String)
  /-- A GetObject fetch (plus decompression) of one source object. -/
  | get
  /-- A PutObject call (destination write), with its key and body. -/
  | put (bucket key : String) (body : Bytes)
  /-- A dry-run log line "would upload <humanized size> to bucket/key";
  the recorded `size` is the byte count that `humanizeBytes` renders. -/
  | dryLog (bucket key : String) (size : Nat)
deriving DecidableEq

instance {ε α : Type} [DecidableEq ε] [DecidableEq α] : DecidableEq (Except ε α)
  | .ok a, .ok b => decidable_of_iff (a = b) (by simp)
  | .ok _, .error _ => isFalse (by simp)
  | .error _, .ok _ => isFalse (by simp)
  | .error e, .error f => decidable_of_iff (e = f) (by simp)

/-- Result of an operation: the returned `error` value, the aggregator
state afterwards, and the events emitted while it ran. -/
structure StepResult where
  res : Except String Unit
  state : AggState
  events : List Event
deriving DecidableEq

/-- External configuration of a run: size threshold (`maxOutputSize` in
the source), the dry-run flag, the PutObject success oracle, the
destination bucket and the two encoding stages. -/
structure Config where
  maxOut : Nat
  dryRun : Bool
  putOk : Nat → Bool
  destBucket : String
  enc : Bytes → Bytes
  flushEnc : Bytes → Bytes

/-- `maxOutputSize = 500 * 1024 * 1024` from the source. -/
def maxOutputSize : Nat := 500 * 1024 * 1024

/-- Go `fmt.Sprintf("%03d", n)`: decimal, zero-padded to width 3. -/
def pad3 (n : Nat) : String :=
  if n < 10 then "00" ++ Nat.repr n
  else if n < 100 then "0" ++ Nat.repr n
  else Nat.repr n

/-- The destination key built by `uploadBuffer`:
`fmt.Sprintf("%saggregated_%03d.gz", a.destPrefix, a.fileCounter)`
after the counter was incremented (so the argument is the old counter
plus one). -/
def flushKey (s : AggState) : String :=
  s.destPfx ++ "aggregated_" ++ pad3 (s.fileCounter + 1) ++ ".gz"

/-- `aggregator.uploadBuffer`: no-op on an empty buffer; otherwise
increment the bundle counter, build the key, and either log (dry run)
or call PutObject.  On success (or dry run) the buffer and size counter
are reset; on a PutObject error the function returns early, so the
buffer and size counter keep their contents (only the counter was
already incremented). -/
def uploadBuffer (cfg : Config) (s : AggState) : StepResult :=
  if s.currentBuffer = [] then
    { res := .ok (), state := s, events := [] }
  else if cfg.dryRun then
    { res := .ok ()
      state := { s with fileCounter := s.fileCounter + 1, currentBuffer := [], currentSize := 0 }
      events := [.dryLog cfg.destBucket (flushKey s) (cfg.flushEnc s.currentBuffer).length] }
  else if cfg.putOk (s.fileCounter + 1) then
    { res := .ok ()
      state := { s with fileCounter := s.fileCounter + 1, currentBuffer := [], currentSize := 0 }
      events := [.put cfg.destBucket (flushKey s) (cfg.flushEnc s.currentBuffer)] }
  else
    { res := .error "error uploading to S3"
      state := { s with fileCounter := s.fileCounter + 1 }
      events := [.put cfg.destBucket (flushKey s) (cfg.flushEnc s.currentBuffer)] }

/-- Appending `d` to the buffer: `a.currentBuffer.Write(d)` (which for
`bytes.Buffer` always writes all of `d` and returns no error) followed
by `a.currentSize += int64(n)` with `n = len(d)`. -/
def appendContent (s : AggState) (d : Bytes) : AggState :=
  { s with currentBuffer := s.currentBuffer ++ d, currentSize := s.currentSize + d.length }

/-- `aggregator.writeContent`: encode the content (`id` in variant A,
per-item gzip in variant B), flush first if the size counter plus the
encoded length meets or exceeds the threshold, then append. -/
def writeContent (cfg : Config) (s : AggState) (content : Bytes) : StepResult :=
  if cfg.maxOut ≤ s.currentSize + (cfg.enc content).length then
    match (uploadBuffer cfg s).res with
    | .error e =>
      { res := .error e, state := (uploadBuffer cfg s).state,
        events := (uploadBuffer cfg s).events }
    | .ok _ =>
      { res := .ok (), state := appendContent (uploadBuffer cfg s).state (cfg.enc content),
        events := (uploadBuffer cfg s).events }
  else
    { res := .ok (), state := appendContent s (cfg.enc content), events := [] }

/-- `aggregator.run`, sequentialised: the input list is the order in
which the worker pool hands decoded object contents to the buffer (an
arbitrary interleaving); each object is fetched (`Event.get`) and
passed to `writeContent`; the first error aborts the run; after all
objects are consumed the remaining buffer is flushed once. -/
def runItems (cfg : Config) : AggState → List Bytes → StepResult
  | s, [] => uploadBuffer cfg s
  | s, c :: rest =>
    match (writeContent cfg s c).res with
    | .error e =>
      { res := .error e, state := (writeContent cfg s c).state,
        events := Event.get :: (writeContent cfg s c).events }
    | .ok _ =>
      { res := (runItems cfg (writeContent cfg s c).state rest).res,
        state := (runItems cfg (writeContent cfg s c).state rest).state,
        events := Event.get :: (writeContent cfg s c).events ++
          (runItems cfg (writeContent cfg s c).state rest).events }

/-- A fresh aggregator as built by `newAggregator`: empty buffer, zero
size, zero counter. -/
def freshAgg (dpfx : String) : AggState :=
  { destPfx := dpfx, currentBuffer := [], currentSize := 0, fileCounter := 0 }

/-- The per-partition destination key prefix computed by `processLogs`:
`fmt.Sprintf("%s%s/%s/", destPrefix, app, date)`. -/
def partDestPfx (pfx0 app date : String) : String :=
  pfx0 ++ app ++ "/" ++ date ++ "/"

/-- The partition loop of `processLogs` / `handleRequest`: for each
discovered common prefix (partition `app` with its objects' decoded
contents), reset the bundle counter to zero, set the destination
prefix, and run the pipeline; the first failing partition aborts the
job.  Returns the per-partition event traces. -/
def processParts (cfg : Config) (date pfx0 : String) :
    AggState → List (String × List Bytes) →
      Except String Unit × AggState × List (String × List Event)
  | s, [] => (.ok (), s, [])
  | s, (app, items) :: rest =>
    let s0 : AggState :=
      { s with fileCounter := 0, destPfx := partDestPfx pfx0 app date }
    match (runItems cfg s0 items).res with
    | .error e => (.error e, (runItems cfg s0 items).state, [(app, (runItems cfg s0 items).events)])
    | .ok _ =>
      let t := processParts cfg date pfx0 (runItems cfg s0 items).state rest
      (t.1, t.2.1, (app, (runItems cfg s0 items).events) :: t.2.2)

/-- `processLogs` (equally the lambda `handleRequest` of variant B):
validate `date` and `bucket` before anything else, then discover the
partitions (one listing) and process each.  The partition contents are
supplied as the result of that listing. -/
def processLogs (cfg : Config) (date bucket : String)
    (parts : List (String × List Bytes)) : Except String Unit × List Event :=
  if date = "" then (.error "date is required", [])
  else if bucket = "" then (.error "bucket is required", [])
  else
    let s0 := freshAgg ""
    let t := processParts cfg date "" s0 parts
    (t.1, Event.list bucket :: (t.2.2.map Prod.snd).flatten)

/-- Variant A's configuration (no compression stage in the buffer or at
flush: the buffer holds the raw decoded contents and is uploaded as
is). -/
def cfgA (T : Nat) (dry : Bool) (putOk : Nat → Bool) (bucket : String) : Config :=
  { maxOut := T, dryRun := dry, putOk := putOk, destBucket := bucket,
    enc := id, flushEnc := id }

/-- Is an event a PutObject call? -/
def isPut : Event → Bool
  | .put _ _ _ => true
  | _ => false

/-- Bodies of the PutObject calls in a trace, in emission order (which
is bundle-counter order). -/
def putBodies (ev : List Event) : List Bytes :=
  ev.filterMap fun e =>
    match e with
    | .put _ _ b => some b
    | _ => none

/-- The bundle records of a trace: one `(key, size)` pair per flush of
a non-empty buffer, live (PutObject) or dry-run (log line). -/
def bundleRecs (ev : List Event) : List (String × Nat) :=
  ev.filterMap fun e =>
    match e with
    | .put _ k b => some (k, b.length)
    | .dryLog _ k n => some (k, n)
    | _ => none

/-- Keys of the bundles recorded in a trace. -/
def bundleKeys (ev : List Event) : List String :=
  (bundleRecs ev).map Prod.fst

/-- Sizes of the bundles recorded in a trace. -/
def flushSizes (ev : List Event) : List Nat :=
  (bundleRecs ev).map Prod.snd

/-! ## The lock-aware model

In Go, `sync.Mutex` is not reentrant: `Lock()` on a mutex that the
same goroutine already holds blocks forever.  `writeContent` takes
`a.mu` at entry and, on the threshold path, calls `a.uploadBuffer`,
whose own `a.mu.Lock()` therefore never returns.  The functions below
make the mutex explicit; `none` means the operation never completes. -/

/-- `uploadBuffer` with the mutex explicit: `muHeld` says whether the
calling goroutine already holds `a.mu` when `uploadBuffer` executes
`a.mu.Lock()`.  If it does, the lock acquisition blocks forever. -/
def uploadBufferMu (muHeld : Bool) (cfg : Config) (s : AggState) : Option StepResult :=
  if muHeld then none else some (uploadBuffer cfg s)

/-- `writeContent` with the mutex explicit: called with the mutex free,
it acquires `a.mu` and holds it for its whole body, including the
nested `a.uploadBuffer` call on the threshold path. -/
def writeContentMu (cfg : Config) (s : AggState) (content : Bytes) : Option StepResult :=
  if cfg.maxOut ≤ s.currentSize + (cfg.enc content).length then
    match uploadBufferMu true cfg s with
    | none => none
    | some { res := .error e, state := s1, events := ev } =>
      some { res := .error e, state := s1, events := ev }
    | some { res := .ok _, state := s1, events := ev } =>
      some { res := .ok (), state := appendContent s1 (cfg.enc content), events := ev }
  else
    some { res := .ok (), state := appendContent s (cfg.enc content), events := [] }

/-! ## humanizeBytes -/

/-- The unit-search loop of `humanizeBytes`:
`for n := bytes / unit; n >= unit; n /= unit { div *= unit; exp++ }`,
returning the final `(div, exp)`. -/
def humanizeLoop (dv ex n : Nat) : Nat × Nat :=
  if h : 1024 ≤ n then humanizeLoop (dv * 1024) (ex + 1) (n / 1024)
  else (dv, ex)
termination_by n
decreasing_by exact Nat.div_lt_self (by omega) (by omega)

/-- The unit exponent `humanizeBytes` computes for `b` bytes (the index
into the unit string "KMGTPE"). -/
def unitExp (b : Nat) : Nat :=
  (humanizeLoop 1024 0 (b / 1024)).2

/-- `humanizeBytes`.  Inputs below 1024 are rendered exactly as
`fmt.Sprintf("%d B", bytes)`.  Larger inputs are rendered as
`fmt.Sprintf("%.1f %cB", float64(bytes)/float64(div), "KMGTPE"[exp])`;
the `float64` division and `%.1f` rendering are external formatting
kept abstract as the parameter `fmtF`, while the indexing of the
constant `"KMGTPE"` is modelled exactly: an out-of-range index would
panic in Go, modelled as `none`. -/
def humanizeBytes (fmtF : Nat → Nat → String) (b : Nat) : Option String :=
  if b < 1024 then some (Nat.repr b ++ " B")
  else
    match "KMGTPE".toList.get? (humanizeLoop 1024 0 (b / 1024)).2 with
    | none => none
    | some c =>
      some (fmtF b (humanizeLoop 1024 0 (b / 1024)).1 ++ " " ++ String.singleton c ++ "B")

/-! ## Facts about uploadBuffer -/

lemma uploadBuffer_destPfx (cfg : Config) (s : AggState) :
    (uploadBuffer cfg s).state.destPfx = s.destPfx := by
  unfold uploadBuffer; split_ifs <;> rfl

lemma uploadBuffer_counter (cfg : Config) (s : AggState) :
    (uploadBuffer cfg s).state.fileCounter =
      if s.currentBuffer = [] then s.fileCounter else s.fileCounter + 1 := by
  unfold uploadBuffer; split_ifs <;> rfl

lemma uploadBuffer_recs (cfg : Config) (s : AggState) :
    bundleRecs (uploadBuffer cfg s).events =
      if s.currentBuffer = [] then []
      else [(flushKey s, (cfg.flushEnc s.currentBuffer).length)] := by
  unfold uploadBuffer; split_ifs <;> simp [bundleRecs]

lemma uploadBuffer_putBodies (cfg : Config) (s : AggState) :
    putBodies (uploadBuffer cfg s).events =
      if s.currentBuffer = [] ∨ cfg.dryRun then [] else [cfg.flushEnc s.currentBuffer] := by
  unfold uploadBuffer
  split_ifs <;> simp_all [putBodies]

lemma uploadBuffer_ok_state (cfg : Config) (s : AggState)
    (h : (uploadBuffer cfg s).res = .ok ()) :
    (uploadBuffer cfg s).state.currentBuffer = [] ∧
    (uploadBuffer cfg s).state.currentSize =
      (if s.currentBuffer = [] then s.currentSize else 0) := by
  unfold uploadBuffer at h ⊢
  split_ifs at h ⊢ with h1 h2 h3 <;> simp_all

lemma uploadBuffer_err_state (cfg : Config) (s : AggState)
    (h : (uploadBuffer cfg s).res ≠ .ok ()) :
    (uploadBuffer cfg s).state.currentBuffer = s.currentBuffer ∧
    (uploadBuffer cfg s).state.currentSize = s.currentSize := by
  unfold uploadBuffer at h ⊢
  split_ifs at h ⊢ with h1 h2 h3 <;> simp_all

lemma uploadBuffer_inv (cfg : Config) (s : AggState)
    (h : s.currentSize = s.currentBuffer.length) :
    (uploadBuffer cfg s).state.currentSize =
      (uploadBuffer cfg s).state.currentBuffer.length := by
  unfold uploadBuffer; split_ifs <;> simp_all

lemma uploadBuffer_filter_put (cfg : Config) (s : AggState) (h : cfg.dryRun = true) :
    (uploadBuffer cfg s).events.filter isPut = [] := by
  unfold uploadBuffer; split_ifs <;> simp_all [isPut]

lemma uploadBuffer_err_buffer_ne (cfg : Config) (s : AggState)
    (h : (uploadBuffer cfg s).res ≠ .ok ()) : s.currentBuffer ≠ [] := by
  unfold uploadBuffer at h
  split_ifs at h <;> simp_all

/-! ## Facts about writeContent -/

lemma writeContent_below (cfg : Config) (s : AggState) (c : Bytes)
    (h : ¬ cfg.maxOut ≤ s.currentSize + (cfg.enc c).length) :
    writeContent cfg s c =
      { res := .ok (), state := appendContent s (cfg.enc c), events := [] } := by
  simp [writeContent, h]

lemma writeContent_flush_ok (cfg : Config) (s : AggState) (c : Bytes)
    (hth : cfg.maxOut ≤ s.currentSize + (cfg.enc c).length)
    (hok : (uploadBuffer cfg s).res = .ok ()) :
    writeContent cfg s c =
      { res := .ok (), state := appendContent (uploadBuffer cfg s).state (cfg.enc c),
        events := (uploadBuffer cfg s).events } := by
  simp [writeContent, hth, hok]

lemma writeContent_flush_err (cfg : Config) (s : AggState) (c : Bytes) (e : String)
    (hth : cfg.maxOut ≤ s.currentSize + (cfg.enc c).length)
    (herr : (uploadBuffer cfg s).res = .error e) :
    writeContent cfg s c =
      { res := .error e, state := (uploadBuffer cfg s).state,
        events := (uploadBuffer cfg s).events } := by
  simp [writeContent, hth, herr]

lemma writeContent_destPfx (cfg : Config) (s : AggState) (c : Bytes) :
    (writeContent cfg s c).state.destPfx = s.destPfx := by
  by_cases hth : cfg.maxOut ≤ s.currentSize + (cfg.enc c).length
  · rcases hu : (uploadBuffer cfg s).res with e | u
    · rw [writeContent_flush_err cfg s c e hth hu]
      simpa using uploadBuffer_destPfx cfg s
    · cases u
      rw [writeContent_flush_ok cfg s c hth hu]
      simpa [appendContent] using uploadBuffer_destPfx cfg s
  · rw [writeContent_below cfg s c hth]
    simp [appendContent]

lemma writeContent_inv (cfg : Config) (s : AggState) (c : Bytes)
    (h : s.currentSize = s.currentBuffer.length) :
    (writeContent cfg s c).state.currentSize =
      (writeContent cfg s c).state.currentBuffer.length := by
  by_cases hth : cfg.maxOut ≤ s.currentSize + (cfg.enc c).length
  · rcases hu : (uploadBuffer cfg s).res with e | u
    · rw [writeContent_flush_err cfg s c e hth hu]
      simpa using uploadBuffer_inv cfg s h
    · cases u
      rw [writeContent_flush_ok cfg s c hth hu]
      simp [appendContent, uploadBuffer_inv cfg s h]
  · rw [writeContent_below cfg s c hth]
    simp [appendContent, h]

/-! ## Facts about runItems -/

lemma cons_range_map {α : Type} (f : Nat → α) (k : Nat) :
    (List.range (k + 1)).map f = f 0 :: (List.range k).map (fun i => f (i + 1)) := by
  rw [List.range_succ_eq_map, List.map_cons, List.map_map]
  rfl

lemma runItems_destPfx (cfg : Config) (items : List Bytes) : ∀ s : AggState,
    (runItems cfg s items).state.destPfx = s.destPfx := by
  induction items with
  | nil => intro s; simpa [runItems] using uploadBuffer_destPfx cfg s
  | cons c rest ih =>
    intro s
    rcases hr : (writeContent cfg s c).res with e | u
    · simp only [runItems, hr]
      exact writeContent_destPfx cfg s c
    · simp only [runItems, hr]
      rw [ih]
      exact writeContent_destPfx cfg s c

lemma bundleRecs_nil : bundleRecs [] = [] := rfl

lemma bundleRecs_cons_get (ev : List Event) :
    bundleRecs (Event.get :: ev) = bundleRecs ev := by simp [bundleRecs]

lemma bundleRecs_append (a b : List Event) :
    bundleRecs (a ++ b) = bundleRecs a ++ bundleRecs b := by
  simp [bundleRecs]

lemma putBodies_nil : putBodies [] = [] := rfl

lemma putBodies_cons_get (ev : List Event) :
    putBodies (Event.get :: ev) = putBodies ev := by simp [putBodies]

lemma putBodies_append (a b : List Event) :
    putBodies (a ++ b) = putBodies a ++ putBodies b := by
  simp [putBodies]

lemma writeContent_err_flush (cfg : Config) (s : AggState) (c : Bytes) (e : String)
    (hth : cfg.maxOut ≤ s.currentSize + (cfg.enc c).length)
    (hr : (writeContent cfg s c).res = .error e) :
    (uploadBuffer cfg s).res = .error e := by
  rcases hu : (uploadBuffer cfg s).res with f | u
  · rw [writeContent_flush_err cfg s c f hth hu] at hr
    simp at hr
    rw [hr]
  · cases u
    rw [writeContent_flush_ok cfg s c hth hu] at hr
    simp at hr

lemma writeContent_ok_flush (cfg : Config) (s : AggState) (c : Bytes)
    (hth : cfg.maxOut ≤ s.currentSize + (cfg.enc c).length)
    (hr : (writeContent cfg s c).res = .ok ()) :
    (uploadBuffer cfg s).res = .ok () := by
  rcases hu : (uploadBuffer cfg s).res with f | u
  · rw [writeContent_flush_err cfg s c f hth hu] at hr
    simp at hr
  · cases u; rfl

lemma runItems_counter (cfg : Config) (items : List Bytes) : ∀ s : AggState,
    s.fileCounter ≤ (runItems cfg s items).state.fileCounter ∧
    (bundleRecs (runItems cfg s items).events).length =
      (runItems cfg s items).state.fileCounter - s.fileCounter := by
  induction items with
  | nil =>
    intro s
    simp only [runItems]
    rw [uploadBuffer_counter, uploadBuffer_recs]
    split_ifs <;> simp
  | cons c rest ih =>
    intro s
    rcases hr : (writeContent cfg s c).res with e | u
    · simp only [runItems, hr]
      by_cases hth : cfg.maxOut ≤ s.currentSize + (cfg.enc c).length
      · have hu := writeContent_err_flush cfg s c e hth hr
        have hne : s.currentBuffer ≠ [] :=
          uploadBuffer_err_buffer_ne cfg s (by simp [hu])
        rw [writeContent_flush_err cfg s c e hth hu, bundleRecs_cons_get]
        simp only
        rw [uploadBuffer_recs, uploadBuffer_counter]
        simp [hne]
      · rw [writeContent_below cfg s c hth] at hr
        simp at hr
    · cases u
      simp only [runItems, hr]
      by_cases hth : cfg.maxOut ≤ s.currentSize + (cfg.enc c).length
      · have hok := writeContent_ok_flush cfg s c hth hr
        rw [writeContent_flush_ok cfg s c hth hok]
        dsimp only
        have icounter := uploadBuffer_counter cfg s
        rcases ih (appendContent (uploadBuffer cfg s).state (cfg.enc c)) with ⟨ihm, ihr⟩
        have hA : (appendContent (uploadBuffer cfg s).state (cfg.enc c)).fileCounter =
            if s.currentBuffer = [] then s.fileCounter else s.fileCounter + 1 := by
          simp [appendContent, icounter]
        rw [hA] at ihm ihr
        simp only [bundleRecs_append, bundleRecs_cons_get, bundleRecs_nil,
          List.length_append]
        rw [ihr, uploadBuffer_recs]
        constructor
        · refine le_trans ?_ ihm
          split_ifs <;> omega
        · split_ifs at ihm ⊢ with hb
          · simp
          · simp
            omega
      · rw [writeContent_below cfg s c hth]
        dsimp only
        rcases ih (appendContent s (cfg.enc c)) with ⟨ihm, ihr⟩
        have hA : (appendContent s (cfg.enc c)).fileCounter = s.fileCounter := by
          simp [appendContent]
        rw [hA] at ihm ihr
        simp only [bundleRecs_append, bundleRecs_cons_get, bundleRecs_nil,
          List.length_append, List.length_nil, Nat.zero_add]
        exact ⟨ihm, ihr⟩

/-- The key of bundle `fileCounter + i + 1` of the partition whose
destination prefix is `d`. -/
def keyAt (d : String) (base i : Nat) : String :=
  d ++ "aggregated_" ++ pad3 (base + i + 1) ++ ".gz"

lemma runItems_keys (cfg : Config) (items : List Bytes) : ∀ s : AggState,
    bundleKeys (runItems cfg s items).events =
      (List.range ((runItems cfg s items).state.fileCounter - s.fileCounter)).map
        (keyAt s.destPfx s.fileCounter) := by
  induction items with
  | nil =>
    intro s
    simp only [runItems, bundleKeys]
    rw [uploadBuffer_recs, uploadBuffer_counter]
    split_ifs with hb
    · simp
    · simp [flushKey, keyAt, show List.range 1 = [0] from rfl]
  | cons c rest ih =>
    intro s
    rcases hr : (writeContent cfg s c).res with e | u
    · simp only [runItems, hr]
      by_cases hth : cfg.maxOut ≤ s.currentSize + (cfg.enc c).length
      · have hu := writeContent_err_flush cfg s c e hth hr
        have hne : s.currentBuffer ≠ [] :=
          uploadBuffer_err_buffer_ne cfg s (by simp [hu])
        rw [writeContent_flush_err cfg s c e hth hu]
        simp only [bundleKeys, bundleRecs_cons_get]
        rw [uploadBuffer_recs, uploadBuffer_counter]
        simp [hne, flushKey, keyAt, show List.range 1 = [0] from rfl]
      · rw [writeContent_below cfg s c hth] at hr
        simp at hr
    · cases u
      simp only [runItems, hr]
      by_cases hth : cfg.maxOut ≤ s.currentSize + (cfg.enc c).length
      · have hok := writeContent_ok_flush cfg s c hth hr
        rw [writeContent_flush_ok cfg s c hth hok]
        dsimp only
        have icounter := uploadBuffer_counter cfg s
        have hmono := (runItems_counter cfg rest
          (appendContent (uploadBuffer cfg s).state (cfg.enc c))).1
        have idpfx := uploadBuffer_destPfx cfg s
        have hA : (appendContent (uploadBuffer cfg s).state (cfg.enc c)).fileCounter =
            if s.currentBuffer = [] then s.fileCounter else s.fileCounter + 1 := by
          simp [appendContent, icounter]
        have hD : (appendContent (uploadBuffer cfg s).state (cfg.enc c)).destPfx =
            s.destPfx := by
          simp [appendContent, idpfx]
        have ihk := ih (appendContent (uploadBuffer cfg s).state (cfg.enc c))
        rw [hA, hD] at ihk
        rw [hA] at hmono
        simp only [bundleKeys, bundleRecs_append, bundleRecs_cons_get, List.map_append]
        simp only [bundleKeys] at ihk
        rw [ihk, uploadBuffer_recs]
        split_ifs at hmono ⊢ with hb
        · simp
        · simp only [List.map_cons, List.map_nil, List.singleton_append]
          set K := (runItems cfg (appendContent (uploadBuffer cfg s).state (cfg.enc c))
            rest).state.fileCounter with hK
          have hsplit : K - s.fileCounter = (K - (s.fileCounter + 1)) + 1 := by omega
          have hhead : flushKey s = keyAt s.destPfx s.fileCounter 0 := by
            simp [keyAt, flushKey]
          have htail : List.map (keyAt s.destPfx (s.fileCounter + 1))
              (List.range (K - (s.fileCounter + 1))) =
              List.map (fun i => keyAt s.destPfx s.fileCounter (i + 1))
                (List.range (K - (s.fileCounter + 1))) := by
            apply List.map_congr_left
            intro i _
            simp only [keyAt]
            rw [show s.fileCounter + 1 + i + 1 = s.fileCounter + (i + 1) + 1 from by omega]
          rw [hsplit, cons_range_map, ← hhead, ← htail]
      · rw [writeContent_below cfg s c hth]
        dsimp only
        have ihk := ih (appendContent s (cfg.enc c))
        have hA : (appendContent s (cfg.enc c)).fileCounter = s.fileCounter := by
          simp [appendContent]
        have hD : (appendContent s (cfg.enc c)).destPfx = s.destPfx := by
          simp [appendContent]
        rw [hA, hD] at ihk
        simp only [bundleKeys, bundleRecs_append, bundleRecs_cons_get, bundleRecs_nil,
          List.map_append, List.map_nil, List.nil_append]
        simpa [bundleKeys] using ihk

lemma runItems_inv (cfg : Config) (items : List Bytes) : ∀ s : AggState,
    s.currentSize = s.currentBuffer.length →
    (runItems cfg s items).state.currentSize =
      (runItems cfg s items).state.currentBuffer.length := by
  induction items with
  | nil => intro s h; simpa [runItems] using uploadBuffer_inv cfg s h
  | cons c rest ih =>
    intro s h
    rcases hr : (writeContent cfg s c).res with e | u
    · simp only [runItems, hr]
      exact writeContent_inv cfg s c h
    · cases u
      simp only [runItems, hr]
      exact ih (writeContent cfg s c).state (writeContent_inv cfg s c h)

lemma writeContent_filter_put (cfg : Config) (s : AggState) (c : Bytes)
    (hdry : cfg.dryRun = true) :
    (writeContent cfg s c).events.filter isPut = [] := by
  by_cases hth : cfg.maxOut ≤ s.currentSize + (cfg.enc c).length
  · rcases hu : (uploadBuffer cfg s).res with e | u
    · rw [writeContent_flush_err cfg s c e hth hu]
      exact uploadBuffer_filter_put cfg s hdry
    · cases u
      rw [writeContent_flush_ok cfg s c hth hu]
      exact uploadBuffer_filter_put cfg s hdry
  · rw [writeContent_below cfg s c hth]
    rfl

lemma runItems_filter_put (cfg : Config) (items : List Bytes)
    (hdry : cfg.dryRun = true) : ∀ s : AggState,
    (runItems cfg s items).events.filter isPut = [] := by
  induction items with
  | nil => intro s; simpa [runItems] using uploadBuffer_filter_put cfg s hdry
  | cons c rest ih =>
    intro s
    rcases hr : (writeContent cfg s c).res with e | u
    · simp only [runItems, hr]
      simp [List.filter_cons, isPut, writeContent_filter_put cfg s c hdry]
    · cases u
      simp only [runItems, hr]
      simp [List.filter_append, List.filter_cons, isPut,
        writeContent_filter_put cfg s c hdry, ih (writeContent cfg s c).state]

lemma uploadBuffer_put_count (cfg : Config) (s : AggState) (hlive : cfg.dryRun = false) :
    (putBodies (uploadBuffer cfg s).events).length =
      (bundleRecs (uploadBuffer cfg s).events).length := by
  rw [uploadBuffer_putBodies, uploadBuffer_recs]
  simp [hlive]
  split_ifs <;> simp

lemma runItems_put_count (cfg : Config) (items : List Bytes)
    (hlive : cfg.dryRun = false) : ∀ s : AggState,
    (putBodies (runItems cfg s items).events).length =
      (bundleRecs (runItems cfg s items).events).length := by
  induction items with
  | nil => intro s; simpa [runItems] using uploadBuffer_put_count cfg s hlive
  | cons c rest ih =>
    intro s
    rcases hr : (writeContent cfg s c).res with e | u
    · simp only [runItems, hr]
      by_cases hth : cfg.maxOut ≤ s.currentSize + (cfg.enc c).length
      · have hu := writeContent_err_flush cfg s c e hth hr
        rw [writeContent_flush_err cfg s c e hth hu]
        simp only [putBodies_cons_get, bundleRecs_cons_get]
        exact uploadBuffer_put_count cfg s hlive
      · rw [writeContent_below cfg s c hth] at hr
        simp at hr
    · cases u
      simp only [runItems, hr]
      by_cases hth : cfg.maxOut ≤ s.currentSize + (cfg.enc c).length
      · have hok := writeContent_ok_flush cfg s c hth hr
        rw [writeContent_flush_ok cfg s c hth hok]
        dsimp only
        simp only [putBodies_append, bundleRecs_append, putBodies_cons_get,
          bundleRecs_cons_get, List.length_append]
        rw [uploadBuffer_put_count cfg s hlive,
          ih (appendContent (uploadBuffer cfg s).state (cfg.enc c))]
      · rw [writeContent_below cfg s c hth]
        dsimp only
        simp only [putBodies_append, bundleRecs_append, putBodies_cons_get,
          bundleRecs_cons_get, putBodies_nil, bundleRecs_nil, List.length_append]
        rw [ih (appendContent s (cfg.enc c))]
        rfl

lemma runItems_ok_empty (cfg : Config) (items : List Bytes) : ∀ s : AggState,
    (runItems cfg s items).res = .ok () →
    (runItems cfg s items).state.currentBuffer = [] := by
  induction items with
  | nil =>
    intro s h
    simp only [runItems] at h ⊢
    exact (uploadBuffer_ok_state cfg s h).1
  | cons c rest ih =>
    intro s h
    rcases hr : (writeContent cfg s c).res with e | u
    · simp only [runItems, hr] at h
      simp at h
    · cases u
      simp only [runItems, hr] at h ⊢
      exact ih (writeContent cfg s c).state h

lemma flushSizes_cons_get (ev : List Event) :
    flushSizes (Event.get :: ev) = flushSizes ev := by
  simp [flushSizes, bundleRecs_cons_get]

lemma flushSizes_append (a b : List Event) :
    flushSizes (a ++ b) = flushSizes a ++ flushSizes b := by
  simp [flushSizes, bundleRecs_append]

lemma cfgA_enc (T : Nat) (dry : Bool) (p : Nat → Bool) (b : String) :
    (cfgA T dry p b).enc = id := rfl

lemma cfgA_flushEnc (T : Nat) (dry : Bool) (p : Nat → Bool) (b : String) :
    (cfgA T dry p b).flushEnc = id := rfl

lemma cfgA_maxOut (T : Nat) (dry : Bool) (p : Nat → Bool) (b : String) :
    (cfgA T dry p b).maxOut = T := rfl

lemma cfgA_dryRun (T : Nat) (dry : Bool) (p : Nat → Bool) (b : String) :
    (cfgA T dry p b).dryRun = dry := rfl

lemma runItems_sizes (T : Nat) (dry : Bool) (putOk : Nat → Bool) (bucket : String)
    (items : List Bytes) : ∀ s : AggState,
    (runItems (cfgA T dry putOk bucket) s items).res = .ok () →
    (flushSizes (runItems (cfgA T dry putOk bucket) s items).events).sum =
      s.currentBuffer.length + (items.map List.length).sum := by
  induction items with
  | nil =>
    intro s h
    simp only [runItems] at h ⊢
    simp only [flushSizes]
    rw [uploadBuffer_recs]
    split_ifs with hb
    · simp [hb]
    · simp [cfgA_flushEnc]
  | cons c rest ih =>
    intro s h
    rcases hr : (writeContent (cfgA T dry putOk bucket) s c).res with e | u
    · simp only [runItems, hr] at h
      simp at h
    · cases u
      simp only [runItems, hr] at h ⊢
      by_cases hth : (cfgA T dry putOk bucket).maxOut ≤
          s.currentSize + ((cfgA T dry putOk bucket).enc c).length
      · have hok := writeContent_ok_flush _ s c hth hr
        rw [writeContent_flush_ok _ s c hth hok] at h ⊢
        dsimp only at h ⊢
        rw [flushSizes_append, flushSizes_cons_get, List.sum_append]
        rw [ih (appendContent (uploadBuffer (cfgA T dry putOk bucket) s).state
          ((cfgA T dry putOk bucket).enc c)) h]
        have hemp := (uploadBuffer_ok_state _ s hok).1
        simp only [flushSizes]
        rw [uploadBuffer_recs]
        simp only [appendContent, hemp, cfgA_enc, cfgA_flushEnc]
        by_cases hb : s.currentBuffer = []
        · simp [hb]
        · simp [hb]
      · rw [writeContent_below _ s c hth] at h ⊢
        dsimp only at h ⊢
        rw [flushSizes_append, flushSizes_cons_get, List.sum_append]
        rw [ih (appendContent s ((cfgA T dry putOk bucket).enc c)) h]
        simp only [appendContent, cfgA_enc]
        simp [flushSizes, bundleRecs_nil]
        omega

lemma runItems_bytes (T : Nat) (putOk : Nat → Bool) (bucket : String)
    (items : List Bytes) : ∀ s : AggState,
    (runItems (cfgA T false putOk bucket) s items).res = .ok () →
    (putBodies (runItems (cfgA T false putOk bucket) s items).events).flatten =
      s.currentBuffer ++ items.flatten := by
  induction items with
  | nil =>
    intro s h
    simp only [runItems] at h ⊢
    rw [uploadBuffer_putBodies]
    simp only [cfgA_dryRun, cfgA_flushEnc]
    by_cases hb : s.currentBuffer = []
    · simp [hb]
    · simp [hb]
  | cons c rest ih =>
    intro s h
    rcases hr : (writeContent (cfgA T false putOk bucket) s c).res with e | u
    · simp only [runItems, hr] at h
      simp at h
    · cases u
      simp only [runItems, hr] at h ⊢
      by_cases hth : (cfgA T false putOk bucket).maxOut ≤
          s.currentSize + ((cfgA T false putOk bucket).enc c).length
      · have hok := writeContent_ok_flush _ s c hth hr
        rw [writeContent_flush_ok _ s c hth hok] at h ⊢
        dsimp only at h ⊢
        rw [putBodies_append, putBodies_cons_get, List.flatten_append]
        rw [ih (appendContent (uploadBuffer (cfgA T false putOk bucket) s).state
          ((cfgA T false putOk bucket).enc c)) h]
        have hemp := (uploadBuffer_ok_state _ s hok).1
        rw [uploadBuffer_putBodies]
        simp only [appendContent, hemp, cfgA_enc, cfgA_flushEnc, cfgA_dryRun]
        by_cases hb : s.currentBuffer = []
        · simp [hb]
        · simp [hb]
      · rw [writeContent_below _ s c hth] at h ⊢
        dsimp only at h ⊢
        rw [putBodies_append, putBodies_cons_get, List.flatten_append]
        rw [ih (appendContent s ((cfgA T false putOk bucket).enc c)) h]
        simp [appendContent, cfgA_enc, putBodies]

lemma runItems_bound (T : Nat) (dry : Bool) (putOk : Nat → Bool) (bucket : String)
    (items : List Bytes) : ∀ s : AggState,
    (∀ c ∈ items, c.length < T) →
    s.currentSize = s.currentBuffer.length →
    s.currentBuffer.length < T →
    ∀ n ∈ flushSizes (runItems (cfgA T dry putOk bucket) s items).events,
      0 < n ∧ n < T := by
  induction items with
  | nil =>
    intro s _ _ hlen
    simp only [runItems, flushSizes]
    rw [uploadBuffer_recs]
    split_ifs with hb
    · simp
    · simp only [cfgA_flushEnc, id]
      intro n hn
      simp at hn
      subst hn
      exact ⟨List.length_pos.mpr hb, hlen⟩
  | cons c rest ih =>
    intro s hitems hinv hlen
    have hcT : c.length < T := hitems c (by simp)
    have hrest : ∀ d ∈ rest, d.length < T := fun d hd => hitems d (by simp [hd])
    rcases hr : (writeContent (cfgA T dry putOk bucket) s c).res with e | u
    · simp only [runItems, hr]
      by_cases hth : (cfgA T dry putOk bucket).maxOut ≤
          s.currentSize + ((cfgA T dry putOk bucket).enc c).length
      · have hu := writeContent_err_flush _ s c e hth hr
        have hne : s.currentBuffer ≠ [] :=
          uploadBuffer_err_buffer_ne (cfgA T dry putOk bucket) s (by simp [hu])
        rw [writeContent_flush_err _ s c e hth hu]
        dsimp only
        rw [flushSizes_cons_get]
        simp only [flushSizes]
        rw [uploadBuffer_recs]
        simp only [hne, if_neg, cfgA_flushEnc, id]
        intro n hn
        simp [hne] at hn
        subst hn
        exact ⟨List.length_pos.mpr hne, hlen⟩
      · rw [writeContent_below _ s c hth] at hr
        simp at hr
    · cases u
      simp only [runItems, hr]
      by_cases hth : (cfgA T dry putOk bucket).maxOut ≤
          s.currentSize + ((cfgA T dry putOk bucket).enc c).length
      · have hok := writeContent_ok_flush _ s c hth hr
        rw [writeContent_flush_ok _ s c hth hok]
        dsimp only
        rw [flushSizes_append, flushSizes_cons_get]
        have hemp := (uploadBuffer_ok_state _ s hok).1
        have hsz := (uploadBuffer_ok_state _ s hok).2
        intro n hn
        rw [List.mem_append] at hn
        rcases hn with hn | hn
        · simp only [flushSizes] at hn
          rw [uploadBuffer_recs] at hn
          split_ifs at hn with hb
          · simp at hn
          · simp only [cfgA_flushEnc, id] at hn
            simp at hn
            subst hn
            exact ⟨List.length_pos.mpr hb, hlen⟩
        · have hub0 : (uploadBuffer (cfgA T dry putOk bucket) s).state.currentSize = 0 := by
            rw [hsz]
            split_ifs with hbuf
            · rw [hinv, hbuf]; rfl
            · rfl
          refine ih (appendContent (uploadBuffer (cfgA T dry putOk bucket) s).state
            ((cfgA T dry putOk bucket).enc c)) hrest ?_ ?_ n hn
          · simp [appendContent, hemp, hub0, cfgA_enc]
          · simpa [appendContent, hemp, cfgA_enc] using hcT
      · rw [writeContent_below _ s c hth]
        dsimp only
        rw [flushSizes_append, flushSizes_cons_get]
        intro n hn
        rw [List.mem_append] at hn
        rcases hn with hn | hn
        · simp [flushSizes, bundleRecs] at hn
        · refine ih (appendContent s ((cfgA T dry putOk bucket).enc c)) hrest ?_ ?_ n hn
          · simp [appendContent, cfgA_enc, hinv]
          · simp only [appendContent, cfgA_enc, id]
            simp only [cfgA_maxOut, cfgA_enc, id] at hth
            simp
            omega

/-- Keys of one partition's run, started (as `processLogs` does) with the
bundle counter reset to zero: they are exactly
`aggregated_001.gz, aggregated_002.gz, ...` under the partition's
destination prefix. -/
lemma partition_keys (cfg : Config) (items : List Bytes) (s : AggState)
    (h0 : s.fileCounter = 0) :
    bundleKeys (runItems cfg s items).events =
      (List.range (bundleRecs (runItems cfg s items).events).length).map
        (fun i => s.destPfx ++ "aggregated_" ++ pad3 (i + 1) ++ ".gz") := by
  have hk := runItems_keys cfg items s
  have hc := (runItems_counter cfg items s).2
  rw [hk, h0] at *
  rw [hc, h0]
  apply List.map_congr_left
  intro i _
  simp [keyAt]

lemma processParts_keys (cfg : Config) (date pfx0 : String)
    (parts : List (String × List Bytes)) : ∀ s : AggState,
    List.Forall
      (fun pr : String × List Event =>
        bundleKeys pr.2 =
          (List.range (bundleRecs pr.2).length).map
            (fun i => partDestPfx pfx0 pr.1 date ++ "aggregated_" ++ pad3 (i + 1) ++ ".gz"))
      (processParts cfg date pfx0 s parts).2.2 := by
  induction parts with
  | nil => intro s; simp [processParts]
  | cons p rest ih =>
    intro s
    rcases p with ⟨app, items⟩
    have hkey := partition_keys cfg items
      { s with fileCounter := 0, destPfx := partDestPfx pfx0 app date } rfl
    rcases hr : (runItems cfg
        { s with fileCounter := 0, destPfx := partDestPfx pfx0 app date } items).res with e | u
    · simp only [processParts, hr]
      simp [List.forall_cons]
      exact hkey
    · cases u
      simp only [processParts, hr]
      simp only [List.forall_cons]
      exact ⟨hkey, ih _⟩

/-! ## Facts about humanizeBytes -/

lemma humanizeLoop_exp_le : ∀ (k dv ex n : Nat), n < 1024 ^ (k + 1) →
    (humanizeLoop dv ex n).2 ≤ ex + k := by
  intro k
  induction k with
  | zero =>
    intro dv ex n hn
    unfold humanizeLoop
    rw [dif_neg (by omega : ¬ 1024 ≤ n)]
    simp
  | succ k ih =>
    intro dv ex n hn
    unfold humanizeLoop
    by_cases h : 1024 ≤ n
    · rw [dif_pos h]
      refine le_trans (ih (dv * 1024) (ex + 1) (n / 1024) ?_) (by omega)
      rw [Nat.div_lt_iff_lt_mul (by omega)]
      calc n < 1024 ^ (k + 2) := hn
        _ = 1024 ^ (k + 1) * 1024 := pow_succ 1024 (k + 1)
    · rw [dif_neg h]
      omega

lemma unitExp_le_five (b : Nat) (hb : b < 2 ^ 63) : unitExp b ≤ 5 := by
  have h1 : b / 1024 < 1024 ^ 6 := by
    rw [Nat.div_lt_iff_lt_mul (by omega)]
    calc b < 2 ^ 63 := hb
      _ ≤ 1024 ^ 6 * 1024 := by norm_num
  simpa using humanizeLoop_exp_le 5 1024 0 (b / 1024) h1

/-! ## Small arithmetic and permutation helpers -/

lemma perm_flatten {α : Type} {l₁ l₂ : List (List α)} (h : l₁.Perm l₂) :
    l₁.flatten.Perm l₂.flatten := by
  induction h with
  | nil => exact List.Perm.refl _
  | cons x _ ih => simpa using ih.append_left x
  | swap x y l =>
    simp only [List.flatten_cons]
    rw [← List.append_assoc, ← List.append_assoc]
    exact (List.perm_append_comm).append_right _
  | trans _ _ ih1 ih2 => exact ih1.trans ih2

lemma sum_le_len_mul (l : List Nat) (m : Nat) (h : ∀ n ∈ l, n ≤ m) :
    l.sum ≤ l.length * m := by
  induction l with
  | nil => simp
  | cons a t ih =>
    simp only [List.sum_cons, List.length_cons]
    have ha := h a (by simp)
    have ht := ih fun n hn => h n (by simp [hn])
    calc a + t.sum ≤ m + t.length * m := by omega
      _ = (t.length + 1) * m := by ring

lemma len_le_sum (l : List Nat) (h : ∀ n ∈ l, 1 ≤ n) : l.length ≤ l.sum := by
  induction l with
  | nil => simp
  | cons a t ih =>
    simp only [List.sum_cons, List.length_cons]
    have ha := h a (by simp)
    have ht := ih fun n hn => h n (by simp [hn])
    omega

/-- Total decompressed size of a list of object contents. -/
def totalSize (items : List Bytes) : Nat :=
  (items.map List.length).sum

/-- Number of bundles a run produced, as flush attempts: the bundle
counter is incremented exactly once per flush of a non-empty buffer. -/
def bundleCount (cfg : Config) (s : AggState) (items : List Bytes) : Nat :=
  (runItems cfg s items).state.fileCounter - s.fileCounter

/-! ## The claims -/

/-- C1: for every partition run (variant A, live mode) that completes
without error, the concatenation of the bundle bodies in
bundle-counter (= emission) order is exactly the concatenation of the
contents handed to the buffer, and hence — since the worker pool may
deliver the source objects' contents in any order `items` that is a
permutation of `source` — the multiset of bytes in the bundles equals
the multiset of bytes of the source objects: no byte lost, none
duplicated. -/
theorem C1_bundle_content_conservation (T : Nat) (putOk : Nat → Bool)
    (bucket dpfx : String) (items source : List Bytes)
    (hperm : items.Perm source)
    (hok : (runItems (cfgA T false putOk bucket) (freshAgg dpfx) items).res = .ok ()) :
    (putBodies (runItems (cfgA T false putOk bucket) (freshAgg dpfx) items).events).flatten
      = items.flatten ∧
    (↑((putBodies (runItems (cfgA T false putOk bucket) (freshAgg dpfx)
        items).events).flatten) : Multiset Nat) = ↑(source.flatten) := by
  have hb := runItems_bytes T putOk bucket items (freshAgg dpfx) hok
  rw [show (freshAgg dpfx).currentBuffer = [] from rfl, List.nil_append] at hb
  exact ⟨hb, by rw [hb]; exact Multiset.coe_eq_coe.mpr (perm_flatten hperm)⟩

theorem C1_witness :
    ([[1, 2], [3]] : List Bytes).Perm [[3], [1, 2]] ∧
    (runItems (cfgA 10 false (fun _ => true) "b") (freshAgg "p/") [[1, 2], [3]]).res
      = .ok () ∧
    ((putBodies (runItems (cfgA 10 false (fun _ => true) "b") (freshAgg "p/")
        [[1, 2], [3]]).events).flatten = ([[1, 2], [3]] : List Bytes).flatten ∧
      (↑((putBodies (runItems (cfgA 10 false (fun _ => true) "b") (freshAgg "p/")
        [[1, 2], [3]]).events).flatten) : Multiset Nat) =
        ↑(([[3], [1, 2]] : List Bytes).flatten)) :=
  ⟨by decide, by decide,
    C1_bundle_content_conservation 10 (fun _ => true) "b" "p/" [[1, 2], [3]] [[3], [1, 2]]
      (by decide) (by decide)⟩

/-- C2 counterexample: the claim fails on the code in two ways.
(a) One source object with empty content: `N = 1 > 0` but the final
flush of the (still empty) buffer produces no bundle, so 0 bundles are
produced where the claim demands at least 1.
(b) A single object of size 4 under threshold `T = 2`: `⌈S/T⌉ = 2`, but
the pre-append threshold check flushes an empty buffer (a no-op) and
the whole object ends up in one bundle, so only 1 bundle is produced. -/
theorem C2_counterexample :
    (0 < ([([] : Bytes)]).length ∧
      (runItems (cfgA 5 false (fun _ => true) "b") (freshAgg "p/") [[]]).res = .ok () ∧
      bundleCount (cfgA 5 false (fun _ => true) "b") (freshAgg "p/") [[]] = 0) ∧
    (totalSize [[1, 2, 3, 4]] = 4 ∧
      (runItems (cfgA 2 false (fun _ => true) "b") (freshAgg "p/") [[1, 2, 3, 4]]).res
        = .ok () ∧
      bundleCount (cfgA 2 false (fun _ => true) "b") (freshAgg "p/") [[1, 2, 3, 4]] = 1 ∧
      ¬ (4 + 2 - 1) / 2 ≤ 1) := by decide

/-- C2 (amended): for a partition run that completes without error under
threshold `T > 0`, in which no single object's content size reaches `T`,
the number of bundles produced (flush attempts) is at least `⌈S/T⌉`, at
least 1 when the total size `S` is positive, and exactly 0 when `S = 0`
(in particular when there are no objects): the final flush of an empty
buffer produces no bundle, and objects with empty content contribute
nothing to the buffer. -/
theorem C2_bundle_count_amended (T : Nat) (dry : Bool) (putOk : Nat → Bool)
    (bucket dpfx : String) (items : List Bytes)
    (hT : 0 < T)
    (hsmall : ∀ c ∈ items, c.length < T)
    (hok : (runItems (cfgA T dry putOk bucket) (freshAgg dpfx) items).res = .ok ()) :
    (totalSize items + T - 1) / T ≤
        bundleCount (cfgA T dry putOk bucket) (freshAgg dpfx) items ∧
    (0 < totalSize items →
        1 ≤ bundleCount (cfgA T dry putOk bucket) (freshAgg dpfx) items) ∧
    (totalSize items = 0 →
        bundleCount (cfgA T dry putOk bucket) (freshAgg dpfx) items = 0) := by
  have hs := runItems_sizes T dry putOk bucket items (freshAgg dpfx) hok
  rw [show ((freshAgg dpfx).currentBuffer).length = 0 from rfl, Nat.zero_add] at hs
  have hbnd := runItems_bound T dry putOk bucket items (freshAgg dpfx) hsmall rfl hT
  have hcnt := (runItems_counter (cfgA T dry putOk bucket) items (freshAgg dpfx)).2
  have hkcnt : bundleCount (cfgA T dry putOk bucket) (freshAgg dpfx) items =
      (flushSizes (runItems (cfgA T dry putOk bucket) (freshAgg dpfx) items).events).length := by
    have hfl : (flushSizes (runItems (cfgA T dry putOk bucket) (freshAgg dpfx)
        items).events).length =
        (bundleRecs (runItems (cfgA T dry putOk bucket) (freshAgg dpfx)
          items).events).length := by
      simp [flushSizes]
    rw [bundleCount, hfl, hcnt]
  set L := flushSizes (runItems (cfgA T dry putOk bucket) (freshAgg dpfx) items).events
    with hL
  have hsum : L.sum = totalSize items := hs
  have hub : L.sum ≤ L.length * (T - 1) :=
    sum_le_len_mul L (T - 1) fun n hn => by have := hbnd n hn; omega
  have hlb : L.length ≤ L.sum :=
    len_le_sum L fun n hn => (hbnd n hn).1
  refine ⟨?_, ?_, ?_⟩
  · rw [hkcnt, Nat.div_le_iff_le_mul_add_pred hT]
    have h1 : L.length * (T - 1) ≤ L.length * T := Nat.mul_le_mul_left _ (by omega)
    have h2 : L.length * T = T * L.length := Nat.mul_comm _ _
    generalize hM : T * L.length = M at *
    omega
  · intro hS
    rw [hkcnt]
    rcases Nat.eq_zero_or_pos L.length with h0 | h1
    · rw [List.length_eq_zero] at h0
      rw [h0] at hsum
      simp at hsum
      omega
    · omega
  · intro hS
    rw [hkcnt]
    omega

theorem C2_witness :
    0 < 3 ∧ (∀ c ∈ ([[1, 2], [3, 4], [5]] : List Bytes), c.length < 3) ∧
    (runItems (cfgA 3 false (fun _ => true) "b") (freshAgg "p/")
      [[1, 2], [3, 4], [5]]).res = .ok () ∧
    ((totalSize [[1, 2], [3, 4], [5]] + 3 - 1) / 3 ≤
        bundleCount (cfgA 3 false (fun _ => true) "b") (freshAgg "p/") [[1, 2], [3, 4], [5]] ∧
      (0 < totalSize [[1, 2], [3, 4], [5]] →
        1 ≤ bundleCount (cfgA 3 false (fun _ => true) "b") (freshAgg "p/") [[1, 2], [3, 4], [5]]) ∧
      (totalSize [[1, 2], [3, 4], [5]] = 0 →
        bundleCount (cfgA 3 false (fun _ => true) "b") (freshAgg "p/") [[1, 2], [3, 4], [5]] = 0)) :=
  ⟨by decide, by decide, by decide,
    C2_bundle_count_amended 3 false (fun _ => true) "b" "p/" [[1, 2], [3, 4], [5]]
      (by decide) (by decide) (by decide)⟩

/-- C3: with the dry-run flag set, a run never invokes the destination
PutObject operation (no put event appears in its trace), and each flush
of a non-empty buffer leaves exactly one bundle record (the dry-run log
line); in live mode PutObject is invoked exactly once per flush of a
non-empty buffer (the put count equals the increase of the bundle
counter, which counts exactly those flushes). -/
theorem C3_dry_run_no_put_live_put_per_flush (cfg : Config) (items : List Bytes)
    (s : AggState) :
    (runItems { cfg with dryRun := true } s items).events.filter isPut = [] ∧
    (bundleRecs (runItems { cfg with dryRun := true } s items).events).length =
      (runItems { cfg with dryRun := true } s items).state.fileCounter - s.fileCounter ∧
    (putBodies (runItems { cfg with dryRun := false } s items).events).length =
      (runItems { cfg with dryRun := false } s items).state.fileCounter - s.fileCounter := by
  refine ⟨runItems_filter_put _ items rfl s, (runItems_counter _ items s).2, ?_⟩
  rw [runItems_put_count _ items rfl s]
  exact (runItems_counter _ items s).2

/-- A one-byte-buffer aggregator state used as concrete input for the
flush-failure behaviour. -/
def oneByteSt : AggState :=
  { destPfx := "p/", currentBuffer := [7], currentSize := 1, fileCounter := 0 }

/-- C4 counterexample: a flush of a non-empty buffer whose PutObject
call fails returns the error *before* the buffer reset, so the
accumulator and the size counter are NOT empty/zero afterwards — the
claim's "whether the upload succeeded or failed" is wrong on the
failure side (the counter, as claimed, was incremented). -/
theorem C4_counterexample :
    (uploadBuffer (cfgA 100 false (fun _ => false) "b") oneByteSt).res ≠ .ok () ∧
    ¬ (uploadBuffer (cfgA 100 false (fun _ => false) "b") oneByteSt).state.currentBuffer
      = [] ∧
    ¬ (uploadBuffer (cfgA 100 false (fun _ => false) "b") oneByteSt).state.currentSize
      = 0 ∧
    (uploadBuffer (cfgA 100 false (fun _ => false) "b") oneByteSt).state.fileCounter
      = 1 := by decide

/-- C4 (amended): after every flush of a non-empty buffer the bundle
counter has been incremented exactly once for the attempt and is never
rolled back; after a successful flush (live upload succeeded, or dry
run) the accumulator is empty and the size counter is zero; after a
failed upload the early error return leaves the accumulator and the
size counter unchanged (the run then aborts with that error). -/
theorem C4_flush_reset_amended (cfg : Config) (s : AggState)
    (hne : s.currentBuffer ≠ []) :
    (uploadBuffer cfg s).state.fileCounter = s.fileCounter + 1 ∧
    ((uploadBuffer cfg s).res = .ok () →
      (uploadBuffer cfg s).state.currentBuffer = [] ∧
      (uploadBuffer cfg s).state.currentSize = 0) ∧
    ((uploadBuffer cfg s).res ≠ .ok () →
      (uploadBuffer cfg s).state.currentBuffer = s.currentBuffer ∧
      (uploadBuffer cfg s).state.currentSize = s.currentSize) := by
  refine ⟨?_, ?_, fun h => uploadBuffer_err_state cfg s h⟩
  · rw [uploadBuffer_counter]
    simp [hne]
  · intro h
    have h2 := uploadBuffer_ok_state cfg s h
    rw [if_neg hne] at h2
    exact h2

theorem C4_witness :
    oneByteSt.currentBuffer ≠ [] ∧
    ((uploadBuffer (cfgA 100 false (fun _ => true) "b") oneByteSt).state.fileCounter =
        oneByteSt.fileCounter + 1 ∧
      ((uploadBuffer (cfgA 100 false (fun _ => true) "b") oneByteSt).res = .ok () →
        (uploadBuffer (cfgA 100 false (fun _ => true) "b") oneByteSt).state.currentBuffer
          = [] ∧
        (uploadBuffer (cfgA 100 false (fun _ => true) "b") oneByteSt).state.currentSize
          = 0) ∧
      ((uploadBuffer (cfgA 100 false (fun _ => true) "b") oneByteSt).res ≠ .ok () →
        (uploadBuffer (cfgA 100 false (fun _ => true) "b") oneByteSt).state.currentBuffer
          = oneByteSt.currentBuffer ∧
        (uploadBuffer (cfgA 100 false (fun _ => true) "b") oneByteSt).state.currentSize
          = oneByteSt.currentSize)) :=
  ⟨by decide,
    C4_flush_reset_amended (cfgA 100 false (fun _ => true) "b") oneByteSt (by decide)⟩

/-- A state whose buffer holds three bytes, used as concrete input for
the threshold path. -/
def thrSt : AggState :=
  { destPfx := "p/", currentBuffer := [1, 2, 3], currentSize := 3, fileCounter := 0 }

/-- C5: if the buffered size plus the new content's size meets or
exceeds the threshold, `writeContent` triggers a flush before
appending: a non-empty buffer leaves a bundle record, and on success
the post-state buffer holds exactly the new content (the old buffered
bytes were flushed out first).  Consequently, when no single object's
content reaches the threshold, every bundle of a run holds at most
`maxOutputSize` buffered bytes. -/
theorem C5_flush_before_append_and_bound (T : Nat) (dry : Bool) (putOk : Nat → Bool)
    (bucket dpfx : String) :
    (∀ (s : AggState) (c : Bytes),
      T ≤ s.currentSize + c.length →
      (s.currentBuffer ≠ [] →
        bundleRecs (writeContent (cfgA T dry putOk bucket) s c).events ≠ []) ∧
      ((writeContent (cfgA T dry putOk bucket) s c).res = .ok () →
        (writeContent (cfgA T dry putOk bucket) s c).state.currentBuffer = c)) ∧
    (∀ items : List Bytes, 0 < T → (∀ c ∈ items, c.length < T) →
      ∀ n ∈ flushSizes (runItems (cfgA T dry putOk bucket) (freshAgg dpfx) items).events,
        n ≤ T) := by
  constructor
  · intro s c hth
    have hth' : (cfgA T dry putOk bucket).maxOut ≤
        s.currentSize + ((cfgA T dry putOk bucket).enc c).length := hth
    constructor
    · intro hne
      rcases hu : (uploadBuffer (cfgA T dry putOk bucket) s).res with e | u
      · rw [writeContent_flush_err _ s c e hth' hu]
        dsimp only
        rw [uploadBuffer_recs]
        simp [hne]
      · cases u
        rw [writeContent_flush_ok _ s c hth' hu]
        dsimp only
        rw [uploadBuffer_recs]
        simp [hne]
    · intro hok'
      have hok := writeContent_ok_flush _ s c hth' hok'
      rw [writeContent_flush_ok _ s c hth' hok]
      dsimp only
      have hemp := (uploadBuffer_ok_state _ s hok).1
      simp [appendContent, hemp, cfgA_enc]
  · intro items hT hsmall n hn
    exact le_of_lt
      (runItems_bound T dry putOk bucket items (freshAgg dpfx) hsmall rfl hT n hn).2

theorem C5_witness :
    (4 ≤ thrSt.currentSize + ([9] : Bytes).length) ∧
    bundleRecs (writeContent (cfgA 4 false (fun _ => true) "b") thrSt [9]).events ≠ [] ∧
    (writeContent (cfgA 4 false (fun _ => true) "b") thrSt [9]).state.currentBuffer
      = [9] ∧
    3 ∈ flushSizes (runItems (cfgA 4 false (fun _ => true) "b") (freshAgg "p/")
      [[1, 2, 3], [9, 9]]).events ∧
    (3 : Nat) ≤ 4 :=
  ⟨by decide,
    ((C5_flush_before_append_and_bound 4 false (fun _ => true) "b" "p/").1 thrSt [9]
      (by decide)).1 (by decide),
    ((C5_flush_before_append_and_bound 4 false (fun _ => true) "b" "p/").1 thrSt [9]
      (by decide)).2 (by decide),
    by decide,
    (C5_flush_before_append_and_bound 4 false (fun _ => true) "b" "p/").2
      [[1, 2, 3], [9, 9]] (by decide) (by decide) 3 (by decide)⟩

/-- A state whose buffer holds three bytes, used as concrete input for
the lock-aware model. -/
def muSt : AggState :=
  { destPfx := "q/", currentBuffer := [4, 5, 6], currentSize := 3, fileCounter := 0 }

/-- C6: the claim says a threshold-triggered flush executes and
completes while the append lock is held.  In the code, `writeContent`
holds `a.mu` when it calls `a.uploadBuffer`, whose own `a.mu.Lock()` on
Go's non-reentrant `sync.Mutex` can never succeed: in the lock-aware
model a threshold-hitting append deadlocks (`none`), even though the
same flush performed with the mutex free would complete.  The flush is
triggered but never executes. -/
theorem C6_threshold_flush_deadlock :
    writeContentMu (cfgA 4 false (fun _ => true) "b") muSt [9] = none ∧
    (uploadBufferMu false (cfgA 4 false (fun _ => true) "b") muSt).isSome = true := by
  decide

/-- A two-byte-buffer state satisfying the size invariant, used as
concrete input. -/
def invSt : AggState :=
  { destPfx := "p/", currentBuffer := [1, 2], currentSize := 2, fileCounter := 0 }

/-- C7: if the running size counter equals the accumulator's length,
then after `uploadBuffer`, after `writeContent` and after a whole run
it still does; and immediately after every successful flush the
accumulator is empty and the size counter is zero. -/
theorem C7_size_counter_invariant (cfg : Config) (s : AggState) (c : Bytes)
    (items : List Bytes) (hinv : s.currentSize = s.currentBuffer.length) :
    ((uploadBuffer cfg s).state.currentSize =
      (uploadBuffer cfg s).state.currentBuffer.length) ∧
    ((uploadBuffer cfg s).res = .ok () →
      (uploadBuffer cfg s).state.currentBuffer = [] ∧
      (uploadBuffer cfg s).state.currentSize = 0) ∧
    ((writeContent cfg s c).state.currentSize =
      (writeContent cfg s c).state.currentBuffer.length) ∧
    ((runItems cfg s items).state.currentSize =
      (runItems cfg s items).state.currentBuffer.length) := by
  refine ⟨uploadBuffer_inv cfg s hinv, ?_, writeContent_inv cfg s c hinv,
    runItems_inv cfg items s hinv⟩
  intro h
  rcases uploadBuffer_ok_state cfg s h with ⟨hb, hs⟩
  refine ⟨hb, ?_⟩
  by_cases he : s.currentBuffer = []
  · rw [hs, if_pos he, hinv, he]
    rfl
  · rw [hs, if_neg he]

theorem C7_witness :
    invSt.currentSize = invSt.currentBuffer.length ∧
    (((uploadBuffer (cfgA 5 true (fun _ => true) "b") invSt).state.currentSize =
      (uploadBuffer (cfgA 5 true (fun _ => true) "b") invSt).state.currentBuffer.length) ∧
    ((uploadBuffer (cfgA 5 true (fun _ => true) "b") invSt).res = .ok () →
      (uploadBuffer (cfgA 5 true (fun _ => true) "b") invSt).state.currentBuffer = [] ∧
      (uploadBuffer (cfgA 5 true (fun _ => true) "b") invSt).state.currentSize = 0) ∧
    ((writeContent (cfgA 5 true (fun _ => true) "b") invSt [3]).state.currentSize =
      (writeContent (cfgA 5 true (fun _ => true) "b") invSt
        [3]).state.currentBuffer.length) ∧
    ((runItems (cfgA 5 true (fun _ => true) "b") invSt [[4]]).state.currentSize =
      (runItems (cfgA 5 true (fun _ => true) "b") invSt
        [[4]]).state.currentBuffer.length)) :=
  ⟨by decide,
    C7_size_counter_invariant (cfgA 5 true (fun _ => true) "b") invSt [3] [[4]]
      (by decide)⟩

/-- C8: for every partition processed by the orchestration loop —
whatever state the aggregator was left in by earlier partitions — the
bundle keys of that partition's run are exactly
`<partition destination prefix>aggregated_001.gz, aggregated_002.gz, …`
in order: the counter restarts at 1 for each partition (it is reset to
0 and pre-incremented on the first flush), is incremented once per
flush including the final one, and each key is the partition's
destination prefix followed by `aggregated_`, the zero-padded
three-digit counter, and `.gz`. -/
theorem C8_partition_counter_and_keys (cfg : Config) (date pfx0 : String)
    (parts : List (String × List Bytes)) (s : AggState) :
    List.Forall
      (fun pr : String × List Event =>
        bundleKeys pr.2 =
          (List.range (bundleRecs pr.2).length).map
            (fun i => partDestPfx pfx0 pr.1 date ++ "aggregated_" ++ pad3 (i + 1) ++ ".gz"))
      (processParts cfg date pfx0 s parts).2.2 :=
  processParts_keys cfg date pfx0 parts s

/-- C9: an invocation with an empty `date` or an empty `bucket` returns
a configuration error before any object-store interaction: the result
is the corresponding error and the event trace is empty — no listing,
no fetch, no upload. -/
theorem C9_config_error_fail_fast (cfg : Config) (date bucket : String)
    (parts : List (String × List Bytes)) (h : date = "" ∨ bucket = "") :
    (processLogs cfg date bucket parts).1 =
      .error (if date = "" then "date is required" else "bucket is required") ∧
    (processLogs cfg date bucket parts).2 = [] := by
  by_cases hd : date = ""
  · simp [processLogs, hd]
  · rcases h with h | h
    · exact absurd h hd
    · simp [processLogs, hd, h]

theorem C9_witness :
    ((""  : String) = "" ∨ ("b" : String) = "") ∧
    ((processLogs (cfgA 5 false (fun _ => true) "b") "" "b" [("a", [[1]])]).1 =
      .error (if ("" : String) = "" then "date is required" else "bucket is required") ∧
    (processLogs (cfgA 5 false (fun _ => true) "b") "" "b" [("a", [[1]])]).2 = []) :=
  ⟨Or.inl rfl,
    C9_config_error_fail_fast (cfgA 5 false (fun _ => true) "b") "" "b" [("a", [[1]])]
      (Or.inl rfl)⟩

/-- C10: for every input below `2^63` (a non-negative Go `int`),
`humanizeBytes` terminates without panicking: the computed unit
exponent stays below the length 6 of the index string "KMGTPE" (for
64-bit inputs it is at most 5, the index of 'E'), so the string index
never panics; and every input below 1024 is rendered exactly as the
decimal of the value followed by " B". -/
theorem C10_humanize_bytes_safe (fmtF : Nat → Nat → String) (b : Nat)
    (hb : b < 2 ^ 63) :
    (humanizeBytes fmtF b).isSome = true ∧
    unitExp b < 6 ∧
    (b < 1024 → humanizeBytes fmtF b = some (Nat.repr b ++ " B")) := by
  have hexp : unitExp b ≤ 5 := unitExp_le_five b hb
  refine ⟨?_, by omega, ?_⟩
  · unfold humanizeBytes
    by_cases hsmall : b < 1024
    · simp [hsmall]
    · rw [if_neg hsmall]
      have hlen : unitExp b < ("KMGTPE".toList).length := by
        rw [show ("KMGTPE".toList).length = 6 from rfl]
        omega
      have hg := List.get?_eq_get hlen
      unfold unitExp at hg
      rw [hg]
      rfl
  · intro hsmall
    unfold humanizeBytes
    rw [if_pos hsmall]

theorem C10_witness :
    (2048 < 2 ^ 63) ∧
    ((humanizeBytes (fun _ _ => "") 2048).isSome = true ∧
      unitExp 2048 < 6 ∧
      (2048 < 1024 → humanizeBytes (fun _ _ => "") 2048 = some (Nat.repr 2048 ++ " B"))) :=
  ⟨by decide, C10_humanize_bytes_safe (fun _ _ => "") 2048 (by decide)⟩

end Agg
